import Mathlib

/-!
Verification model of the event-distribution pipeline of the
geolocation-tracker repository (Redis Streams publisher / consumer /
handler dispatch), shallowly embedded in Lean 4.

Sources embedded here:
* internal/domain/events/events.go         (Event, EventMetadata, constants)
* internal/infrastructure/events/redis_consumer.go
    (RedisStreamConsumer: Subscribe loop body, parseMessage, Ack,
     RegisterHandler, ProcessEvents/processEvent;
     RedisStreamPublisher: Publish, ensureStreamExists, InitializeStreams)
* the events service handlers file (NotificationHandler, AnalyticsHandler,
  RealtimeHandler)

Modelling conventions:
* Go `interface\x7b\x7d` values that may appear inside an event's `Data`
  map are modelled by `GoValue`; JSON abstract syntax by `JValue`.
  `encoding/json` marshalling of a `GoValue` fails exactly on values the
  Go library cannot encode (functions, channels, NaN, ...), modelled by
  the `gunsupported` constructor.
* The text layer of the Go standard library codecs (JSON text,
  RFC3339-nanosecond time text) is modelled by tagging each wire string
  with its provenance (`RVal`): a string that is the JSON encoding of a
  value `j` is `RVal.vjson j`, a string that is the RFC3339Nano encoding
  of an instant `t` is `RVal.vtime t`, any other string is `RVal.vstr s`,
  and a non-string Go value (which fails the `.(string)` type assertion
  in parseMessage) is `RVal.vother`.  Parsing a wire string succeeds
  exactly on strings in the image of the corresponding encoder, which is
  the behaviour of the Go codecs on the strings this pipeline produces.
* `time.Time` is modelled as nanoseconds since the epoch (`Int`); the
  RFC3339Nano format/parse pair is lossless at that precision.
* Redis and the logger are external collaborators: each network call's
  outcome is an explicit oracle argument and each issued command or log
  line is recorded in an effect trace (`Effect`).
-/

namespace Geoloc

/-- JSON abstract syntax (the result of parsing JSON text).  Numbers are
modelled as rationals: every finite float64 is a rational and Go's JSON
round trip of float64 is value-preserving. -/
inductive JValue where
  | jnull : JValue
  | jbool (b : Bool) : JValue
  | jnum (q : Rat) : JValue
  | jstr (s : String) : JValue
  | jarr (xs : List JValue) : JValue
  | jobj (fields : List (String × JValue)) : JValue

/-- A Go `interface\x7b\x7d` value as it may occur in `Event.Data`.
`gunsupported` stands for a value `encoding/json` cannot marshal. -/
inductive GoValue where
  | gnull : GoValue
  | gbool (b : Bool) : GoValue
  | gnum (q : Rat) : GoValue
  | gstr (s : String) : GoValue
  | garr (xs : List GoValue) : GoValue
  | gobj (fields : List (String × GoValue)) : GoValue
  | gunsupported (desc : String) : GoValue

mutual

/-- `json.Marshal` on a dynamic Go value, up to JSON abstract syntax:
fails (returns `none`) exactly when some subvalue is unsupported. -/
def goMarshal : GoValue → Option JValue
  | .gnull => some .jnull
  | .gbool b => some (.jbool b)
  | .gnum q => some (.jnum q)
  | .gstr s => some (.jstr s)
  | .garr xs => (goMarshalList xs).map .jarr
  | .gobj fs => (goMarshalFields fs).map .jobj
  | .gunsupported _ => none

def goMarshalList : List GoValue → Option (List JValue)
  | [] => some []
  | v :: vs =>
    match goMarshal v, goMarshalList vs with
    | some j, some js => some (j :: js)
    | _, _ => none

def goMarshalFields : List (String × GoValue) → Option (List (String × JValue))
  | [] => some []
  | (k, v) :: fs =>
    match goMarshal v, goMarshalFields fs with
    | some j, some js => some ((k, j) :: js)
    | _, _ => none

end

mutual

/-- `json.Unmarshal` of parsed JSON into `interface\x7b\x7d` (total). -/
def jsonToGo : JValue → GoValue
  | .jnull => .gnull
  | .jbool b => .gbool b
  | .jnum q => .gnum q
  | .jstr s => .gstr s
  | .jarr xs => .garr (jsonToGoList xs)
  | .jobj fs => .gobj (jsonToGoFields fs)

def jsonToGoList : List JValue → List GoValue
  | [] => []
  | j :: js => jsonToGo j :: jsonToGoList js

def jsonToGoFields : List (String × JValue) → List (String × GoValue)
  | [] => []
  | (k, j) :: js => (k, jsonToGo j) :: jsonToGoFields js

end

/-- `json.Unmarshal` of JSON text into `map[string]interface\x7b\x7d`:
an object gives the field map, `null` leaves the nil map, anything else
is a type error. -/
def jsonToGoMap : JValue → Option (List (String × GoValue))
  | .jobj fs => some (jsonToGoFields fs)
  | .jnull => some []
  | _ => none

def jsonEscapeChar (c : Char) : String :=
  if c = '"' then "\\\"" else if c = '\\' then "\\\\" else String.singleton c

def jsonEscape (s : String) : String :=
  String.join (s.toList.map jsonEscapeChar)

mutual

/-- JSON text of a value (the string `json.Marshal` produces, up to the
number-rendering details that never matter to this pipeline). -/
def jsonText : JValue → String
  | .jnull => "null"
  | .jbool b => if b then "true" else "false"
  | .jnum q => toString q
  | .jstr s => "\"" ++ jsonEscape s ++ "\""
  | .jarr xs => "[" ++ jsonTextList xs ++ "]"
  | .jobj fs => "\x7b" ++ jsonTextFields fs ++ "\x7d"

def jsonTextList : List JValue → String
  | [] => ""
  | [j] => jsonText j
  | j :: js => jsonText j ++ "," ++ jsonTextList js

def jsonTextFields : List (String × JValue) → String
  | [] => ""
  | [(k, j)] => "\"" ++ jsonEscape k ++ "\":" ++ jsonText j
  | (k, j) :: js => "\"" ++ jsonEscape k ++ "\":" ++ jsonText j ++ "," ++ jsonTextFields js

end

/-- An instant, as nanoseconds since the Unix epoch.  RFC3339Nano
formatting followed by parsing is the identity at this precision. -/
abbrev Timestamp := Int

/-- Stand-in for the RFC3339Nano text of an instant (injective; its
concrete shape never matters, only that parsing recovers `t`). -/
def timeText (t : Timestamp) : String := "rfc3339nano:" ++ toString t

/-- A value stored under one key of a Redis stream entry
(Go `interface\x7b\x7d`), tagged with the provenance of the string it
holds (see the header comment). -/
inductive RVal where
  | vstr (s : String) : RVal
  | vjson (j : JValue) : RVal
  | vtime (t : Timestamp) : RVal
  | vother (desc : String) : RVal

/-- Whether the Go type assertion `.(string)` succeeds on this value. -/
def RVal.isGoString : RVal → Bool
  | .vother _ => false
  | _ => true

/-- The Go string this wire value holds (meaningful when `isGoString`). -/
def RVal.goString : RVal → String
  | .vstr s => s
  | .vjson j => jsonText j
  | .vtime t => timeText t
  | .vother _ => ""

/-- `time.Parse(time.RFC3339Nano, s)`: succeeds exactly on strings in
the image of the time encoder. -/
def RVal.parseTime : RVal → Option Timestamp
  | .vtime t => some t
  | _ => none

/-- `json.Unmarshal` of the held string, up to abstract syntax: succeeds
exactly on strings in the image of the JSON encoder. -/
def RVal.parseJson : RVal → Option JValue
  | .vjson j => some j
  | _ => none

/-- EventMetadata from internal/domain/events/events.go. -/
structure EventMetadata where
  source : String
  version : String
  requestID : String
deriving DecidableEq

/-- Event from internal/domain/events/events.go.  `type_` is the Go
field `Type` (EventType, a string); `eventID` is the Go field `EventID`
(the context id, wire key `event_ctx`). -/
structure Event where
  id : String
  type_ : String
  streamID : String
  userID : String
  eventID : String
  timestamp : Timestamp
  data : List (String × GoValue)
  metadata : EventMetadata

/-- EventType constants from events.go. -/
def eventTypePositionChanged : String := "position.changed"

def eventTypeUserEnteredSector : String := "sector.user_entered"

def eventTypeUserLeftSector : String := "sector.user_left"

def eventTypeUserNearby : String := "proximity.user_nearby"

/-- Stream-name constants. -/
def streamPositionEvents : String := "geolocation:position-events"

def streamSectorEvents : String := "geolocation:sector-events"

def streamProximityEvents : String := "geolocation:proximity-events"

/-- Consumer-group constants. -/
def consumerGroupNotifications : String := "notifications"

def consumerGroupAnalytics : String := "analytics"

def consumerGroupRealtime : String := "realtime"

/-- A Redis stream entry: its log-assigned identifier and field map
(`redis.XMessage`). -/
structure XMessage where
  id : String
  values : List (String × RVal)

/-- Go map lookup over the association-list representation. -/
def lookupVal : List (String × RVal) → String → Option RVal
  | [], _ => none
  | (key, v) :: rest, k => if key = k then some v else lookupVal rest k

def XMessage.field (m : XMessage) (k : String) : Option RVal :=
  lookupVal m.values k

/-- The `message.Values[k].(string)` step of parseMessage: present and
a Go string, or failure. -/
def reqString (m : XMessage) (k : String) : Option String :=
  match m.field k with
  | some v => if v.isGoString then some v.goString else none
  | none => none

/-- The timestamp steps of parseMessage: `.(string)` assertion then
`time.Parse(time.RFC3339Nano, ...)`, with the two distinct errors of the
source. -/
def parsedTime (m : XMessage) : Except String Timestamp :=
  match m.field "timestamp" with
  | none => .error "missing or invalid timestamp"
  | some v =>
    if v.isGoString then
      match v.parseTime with
      | some t => .ok t
      | none => .error "failed to parse timestamp"
    else .error "missing or invalid timestamp"

/-- The data steps of parseMessage: `.(string)` assertion then
`json.Unmarshal` into `map[string]interface\x7b\x7d`. -/
def parsedData (m : XMessage) : Except String (List (String × GoValue)) :=
  match m.field "data" with
  | none => .error "missing or invalid data"
  | some v =>
    if v.isGoString then
      match v.parseJson with
      | some j =>
        match jsonToGoMap j with
        | some fs => .ok fs
        | none => .error "failed to parse data JSON"
      | none => .error "failed to parse data JSON"
    else .error "missing or invalid data"

/-- `json.Unmarshal` of a parsed JSON value into the `EventMetadata`
struct: an object supplies the string fields (a missing field or a JSON
null leaves the zero value, a non-string value is a type error), a
top-level null leaves the zero struct, anything else is a type error. -/
def jsonStrField (fs : List (String × JValue)) (k : String) : Option String :=
  match fs.lookup k with
  | none => some ""
  | some .jnull => some ""
  | some (.jstr s) => some s
  | some _ => none

def unmarshalMetadata : JValue → Option EventMetadata
  | .jobj fs =>
    match jsonStrField fs "source", jsonStrField fs "version", jsonStrField fs "request_id" with
    | some src, some ver, some req => some ⟨src, ver, req⟩
    | _, _, _ => none
  | .jnull => some ⟨"", "", ""⟩
  | _ => none

/-- The metadata steps of parseMessage. -/
def parsedMetadata (m : XMessage) : Except String EventMetadata :=
  match m.field "metadata" with
  | none => .error "missing or invalid metadata"
  | some v =>
    if v.isGoString then
      match v.parseJson with
      | some j =>
        match unmarshalMetadata j with
        | some md => .ok md
        | none => .error "failed to parse metadata JSON"
      | none => .error "failed to parse metadata JSON"
    else .error "missing or invalid metadata"

/-- parseMessage from redis_consumer.go: decode one stream entry into an
Event, checking the seven wire fields in source order; `StreamID` is
taken from the entry's own identifier. -/
def parseMessage (m : XMessage) : Except String Event :=
  match reqString m "event_id" with
  | none => .error "missing or invalid event_id"
  | some eventID =>
    match reqString m "type" with
    | none => .error "missing or invalid type"
    | some eventType =>
      match reqString m "user_id" with
      | none => .error "missing or invalid user_id"
      | some userID =>
        match reqString m "event_ctx" with
        | none => .error "missing or invalid event_ctx"
        | some eventCtx =>
          match parsedTime m with
          | .error e => .error e
          | .ok timestamp =>
            match parsedData m with
            | .error e => .error e
            | .ok data =>
              match parsedMetadata m with
              | .error e => .error e
              | .ok metadata =>
                .ok { id := eventID, type_ := eventType, streamID := m.id,
                      userID := userID, eventID := eventCtx,
                      timestamp := timestamp, data := data, metadata := metadata }

/-- Spec-side characterisation of decodability, following the claim's
words: every required field present and string-typed, with the
timestamp, data and metadata fields moreover parseable (data must be a
JSON object/null, metadata must fit the metadata struct). -/
def fieldPresentString (m : XMessage) (k : String) : Bool :=
  match m.field k with
  | some v => v.isGoString
  | none => false

def wellFormedMessage (m : XMessage) : Bool :=
  fieldPresentString m "event_id" &&
  fieldPresentString m "type" &&
  fieldPresentString m "user_id" &&
  fieldPresentString m "event_ctx" &&
  ((m.field "timestamp").bind RVal.parseTime).isSome &&
  (((m.field "data").bind RVal.parseJson).bind jsonToGoMap).isSome &&
  (((m.field "metadata").bind RVal.parseJson).bind unmarshalMetadata).isSome

/-- One observable external action of the pipeline: a Redis command
(tagged, for `xack`, with whether the backend accepted it) or a log
line.  The structured key/value fields of a log call are elided; the
message string identifies the call site. -/
inductive Effect where
  | xadd (stream : String) (fields : List (String × RVal)) : Effect
  | xdel (stream id : String) : Effect
  | xgroupCreate (stream group start : String) : Effect
  | xack (stream group id : String) (ok : Bool) : Effect
  | sleep (ms : Nat) : Effect
  | logError (msg : String) : Effect
  | logInfo (msg : String) : Effect
  | logDebug (msg : String) : Effect

/-- Ack from redis_consumer.go: issue XACK; on backend failure log an
error and return it, otherwise log at debug level and return nil.  The
backend outcome is the oracle `ackErr`. -/
def ackCall (ackErr : Option String) (stream group id : String) : List Effect × Option String :=
  match ackErr with
  | some e => ([.xack stream group id false, .logError "Failed to acknowledge event"], some e)
  | none => ([.xack stream group id true, .logDebug "Event acknowledged"], none)

/-- A registered event handler: `CanHandle` is a pure predicate on the
event type; `Handle` is modelled as a pure function from the event to
the handler's effect trace and its returned error (the handlers of this
repository only log). -/
structure Handler where
  canHandle : String → Bool
  handle : Event → List Effect × Option String

/-- The handler loop of processEvent: walk the registered list in
order, invoke each handler whose `CanHandle` holds, log per-handler
outcome, and record overall success (the `success` flag of the source).
Returns (trace, invoked handlers in order, success). -/
def runHandlers (e : Event) : List Handler → List Effect × List Handler × Bool
  | [] => ([], [], true)
  | h :: hs =>
    if h.canHandle e.type_ then
      let r := h.handle e
      let this :=
        match r.2 with
        | some _ => r.1 ++ [Effect.logError "Handler failed to process event"]
        | none => r.1 ++ [Effect.logDebug "Handler processed event successfully"]
      let rest := runHandlers e hs
      (this ++ rest.1, h :: rest.2.1, r.2.isNone && rest.2.2)
    else runHandlers e hs

/-- processEvent from redis_consumer.go.  `handlers` is the registry
(`c.handlers`, with an absent key and an empty list collapsed to `[]`,
exactly the condition `!exists || len(handlers) == 0` of the source);
`ackErr` is the backend outcome of the single XACK this call may issue. -/
def processEvent (handlers : String → List Handler) (ackErr : Option String)
    (stream group : String) (e : Event) : List Effect :=
  let hs := handlers e.type_
  if hs.isEmpty then
    Effect.logError "No handlers registered for event type" ::
      (ackCall ackErr stream group e.streamID).1
  else
    let r := runHandlers e hs
    if r.2.2 then
      let a := ackCall ackErr stream group e.streamID
      match a.2 with
      | some _ => r.1 ++ a.1 ++ [Effect.logError "Failed to acknowledge successfully processed event"]
      | none => r.1 ++ a.1
    else
      r.1 ++ [Effect.logError "Event processing failed, will be retried"]

/-- Whether a trace contains a successful XACK of entry `id` on
(`stream`, `group`). -/
def isAckOf (stream group id : String) : Effect → Bool
  | .xack s g i ok => ok && s == stream && g == group && i == id
  | _ => false

def ackedIn (tr : List Effect) (stream group id : String) : Bool :=
  tr.any (isAckOf stream group id)

def hasLogError (tr : List Effect) (msg : String) : Bool :=
  tr.any fun e =>
    match e with
    | .logError m => m == msg
    | _ => false

def hasLogInfo (tr : List Effect) (msg : String) : Bool :=
  tr.any fun e =>
    match e with
    | .logInfo m => m == msg
    | _ => false

/-- Redis pending-entries semantics for one (stream, group): an entry
leaves the pending set exactly when a successful XACK names it. -/
def pendingAfter (pending : List String) (tr : List Effect) (stream group : String) : List String :=
  pending.filter fun id => !(ackedIn tr stream group id)

/-- Result of one Publish call: the (possibly mutated) event, the
returned error value, the record appended to the stream (with its
log-assigned identifier) when the append succeeded, and the effect
trace. -/
structure PublishOutcome where
  event : Event
  result : Except String Unit
  appended : Option XMessage
  trace : List Effect

/-- The field map Publish hands to XADD, in source order. -/
def publishFields (e : Event) (jdata jmeta : JValue) : List (String × RVal) :=
  [("event_id", .vstr e.id), ("type", .vstr e.type_), ("user_id", .vstr e.userID),
   ("event_ctx", .vstr e.eventID), ("timestamp", .vtime e.timestamp),
   ("data", .vjson jdata), ("metadata", .vjson jmeta)]

/-- `json.Marshal` of the EventMetadata struct.  All three fields are
strings, so this marshal cannot fail; the error branch of the source is
dead code and the model makes the function total. -/
def marshalMetadata (md : EventMetadata) : JValue :=
  .jobj [("source", .jstr md.source), ("version", .jstr md.version),
         ("request_id", .jstr md.requestID)]

/-- Publish from the publisher file: generate an ID when empty
(`genID` is the fresh `uuid.New().String()`), marshal Data and
Metadata, XADD the record (`xaddRes` is the backend outcome, carrying
the log-assigned identifier on success), and set `StreamID` only on a
successful append. -/
def publish (genID : String) (xaddRes : Except String String)
    (streamName : String) (e0 : Event) : PublishOutcome :=
  let e1 := if e0.id = "" then { e0 with id := genID } else e0
  match goMarshalFields e1.data with
  | none =>
    { event := e1, result := .error "failed to marshal event data",
      appended := none, trace := [] }
  | some jfields =>
    let fields := publishFields e1 (.jobj jfields) (marshalMetadata e1.metadata)
    match xaddRes with
    | .error err =>
      { event := e1,
        result := .error ("failed to publish to stream " ++ streamName ++ ": " ++ err),
        appended := none,
        trace := [.xadd streamName fields, .logError "Failed to publish event to Redis Stream"] }
    | .ok rid =>
      { event := { e1 with streamID := rid }, result := .ok (),
        appended := some ⟨rid, fields⟩,
        trace := [.xadd streamName fields, .logInfo "Event published successfully to Redis Stream"] }

/-- Outcome of one XREADGROUP call in the Subscribe read loop:
`redis.Nil` (no new entries), a transient error, or a batch of entries
(the per-stream nesting of the reply is flattened; the source iterates
the nested lists in the same order). -/
inductive ReadResult where
  | rnil : ReadResult
  | rerr (e : String) : ReadResult
  | rok (msgs : List XMessage) : ReadResult

/-- What one iteration of the read loop did: its trace, the events sent
onto the output channel, and whether the goroutine returned (closing
the channel). -/
structure IterResult where
  trace : List Effect
  sent : List Event
  exited : Bool

/-- The per-batch body of the read loop: parse each entry; on a decode
failure log and continue with the next entry; on success send the event
onto the channel unless cancellation wins the select (`sendDone n` says
whether the context is done at the n-th send attempt, in which case the
goroutine returns). -/
def handleEntries (sendDone : Nat → Bool) : Nat → List XMessage → List Effect × List Event × Bool
  | _, [] => ([], [], false)
  | n, m :: rest =>
    match parseMessage m with
    | .error _ =>
      let r := handleEntries sendDone n rest
      (Effect.logError "Failed to parse event message" :: r.1, r.2.1, r.2.2)
    | .ok e =>
      if sendDone n then ([], [], true)
      else
        let r := handleEntries sendDone (n + 1) rest
        (Effect.logDebug "Event sent to channel" :: r.1, e :: r.2.1, r.2.2)

/-- One iteration of the Subscribe read loop: the top-level select on
context cancellation, then the XREADGROUP outcome — loop on redis.Nil,
back off and loop on a transient error, otherwise process the batch. -/
def subscribeIteration (ctxDone : Bool) (readRes : ReadResult) (sendDone : Nat → Bool) : IterResult :=
  if ctxDone then
    { trace := [.logInfo "Context cancelled, stopping consumer"], sent := [], exited := true }
  else
    match readRes with
    | .rnil => { trace := [], sent := [], exited := false }
    | .rerr _ =>
      { trace := [.logError "Failed to read from stream", .sleep 5000], sent := [], exited := false }
    | .rok msgs =>
      let r := handleEntries sendDone 0 msgs
      { trace := r.1, sent := r.2.1, exited := r.2.2 }

/-- parseMessage as an Option, for stating which events reach the
channel. -/
def parseOption (m : XMessage) : Option Event :=
  match parseMessage m with
  | .ok e => some e
  | .error _ => none

/-- Go assoc-map lookup inside an event's Data. -/
def lookupGo : List (String × GoValue) → String → Option GoValue
  | [], _ => none
  | (key, v) :: rest, k => if key = k then some v else lookupGo rest k

/-- The `event.Data[k].(float64)` pattern with `, _`: the zero value 0
stands in when the key is absent or not a number. -/
def dataNum (fs : List (String × GoValue)) (k : String) : Rat :=
  match lookupGo fs k with
  | some (.gnum q) => q
  | _ => 0

/-- Go `int(x)` truncation of a float64 value (toward zero). -/
def goIntOf (q : Rat) : Int :=
  if q < 0 then Rat.ceil q else Rat.floor q

/-- NotificationHandler.handlePositionChanged: log the position change,
then send a push notification only when more than 100 m were moved;
always returns nil. -/
def notificationHandlePositionChanged (e : Event) : List Effect × Option String :=
  let distanceMoved := dataNum e.data "distance_moved"
  let base := [Effect.logInfo "Position Changed Notification"]
  if distanceMoved > 100 then
    (base ++ [Effect.logInfo "Sending push notification"], none)
  else (base, none)

/-- NotificationHandler.handleUserEnteredSector. -/
def notificationHandleUserEnteredSector (e : Event) : List Effect × Option String :=
  let usersInSector := dataNum e.data "users_in_sector"
  let base := [Effect.logInfo "User Entered Sector Notification"]
  if goIntOf usersInSector > 1 then
    (base ++ [Effect.logInfo "Notifying other users in sector"], none)
  else (base, none)

/-- NotificationHandler.handleUserLeftSector. -/
def notificationHandleUserLeftSector (_e : Event) : List Effect × Option String :=
  ([Effect.logInfo "User Left Sector Notification"], none)

/-- NotificationHandler.Handle: dispatch on the event type. -/
def notificationHandle (e : Event) : List Effect × Option String :=
  if e.type_ = eventTypePositionChanged then notificationHandlePositionChanged e
  else if e.type_ = eventTypeUserEnteredSector then notificationHandleUserEnteredSector e
  else if e.type_ = eventTypeUserLeftSector then notificationHandleUserLeftSector e
  else ([], some ("unsupported event type: " ++ e.type_))

/-- NotificationHandler.CanHandle. -/
def notificationCanHandle (t : String) : Bool :=
  t == eventTypePositionChanged || t == eventTypeUserEnteredSector || t == eventTypeUserLeftSector

def notificationHandler : Handler :=
  { canHandle := notificationCanHandle, handle := notificationHandle }

/-- AnalyticsHandler. -/
def analyticsHandle (e : Event) : List Effect × Option String :=
  if e.type_ = eventTypePositionChanged then ([Effect.logInfo "Analytics: Position Change"], none)
  else ([], some ("unsupported event type for analytics: " ++ e.type_))

def analyticsHandler : Handler :=
  { canHandle := fun t => t == eventTypePositionChanged, handle := analyticsHandle }

/-- RealtimeHandler. -/
def realtimeHandle (e : Event) : List Effect × Option String :=
  if e.type_ = eventTypePositionChanged then
    ([Effect.logInfo "Realtime: Broadcasting Position Update"], none)
  else ([], some ("unsupported event type for realtime: " ++ e.type_))

def realtimeHandler : Handler :=
  { canHandle := fun t => t == eventTypePositionChanged, handle := realtimeHandle }

/-- The registry built by EventService.registerEventHandlers, in
registration order. -/
def registeredHandlers (t : String) : List Handler :=
  if t = eventTypePositionChanged then [notificationHandler, analyticsHandler, realtimeHandler]
  else if t = eventTypeUserEnteredSector then [notificationHandler]
  else if t = eventTypeUserLeftSector then [notificationHandler]
  else []

/-- The tolerated XGROUP CREATE reply for an existing group. -/
def busygroupMsg : String := "BUSYGROUP Consumer Group name already exists"

def wellKnownGroups : List String :=
  [consumerGroupNotifications, consumerGroupAnalytics, consumerGroupRealtime]

def wellKnownStreams : List String :=
  [streamPositionEvents, streamSectorEvents, streamProximityEvents]

/-- The dummy record ensureStreamExists appends (its timestamp is the
wall clock at the call). -/
def initFieldsAt (now : Timestamp) : List (String × RVal) :=
  [("init", .vstr "true"), ("timestamp", .vtime now)]

/-- One XGROUP CREATE of ensureStreamExists: a non-BUSYGROUP failure is
logged and swallowed; a BUSYGROUP reply is silently tolerated; success
is logged.  `groupCreate` is the backend outcome oracle. -/
def createGroupTrace (groupCreate : String → Option String) (streamName group : String) : List Effect :=
  Effect.xgroupCreate streamName group "$" ::
    (match groupCreate group with
     | some err => if err = busygroupMsg then [] else [Effect.logError "Failed to create consumer group"]
     | none => [Effect.logInfo "Created consumer group"])

/-- ensureStreamExists: append (and delete) a dummy entry to force the
stream into existence — only this append can make the call fail — then
try to create every well-known consumer group, never failing on a
group-creation error. -/
def ensureStreamExists (now : Timestamp) (xaddRes : Except String String)
    (groupCreate : String → Option String) (streamName : String) :
    Except String Unit × List Effect :=
  match xaddRes with
  | .error e =>
    (.error ("failed to ensure stream " ++ streamName ++ " exists: " ++ e),
     [.xadd streamName (initFieldsAt now)])
  | .ok dummyID =>
    (.ok (),
     [.xadd streamName (initFieldsAt now), .xdel streamName dummyID,
      .logInfo "Stream ensured to exist"] ++
       (wellKnownGroups.map (createGroupTrace groupCreate streamName)).flatten)

/-- The loop of InitializeStreams over the well-known streams,
returning at the first ensureStreamExists failure. -/
def initStreamsLoop (now : Timestamp) (xaddRes : String → Except String String)
    (groupCreate : String → String → Option String) : List String → Except String Unit × List Effect
  | [] => (.ok (), [.logInfo "All Redis Streams initialized successfully"])
  | s :: rest =>
    let r := ensureStreamExists now (xaddRes s) (groupCreate s) s
    match r.1 with
    | .error e => (.error ("failed to initialize stream " ++ s ++ ": " ++ e), r.2)
    | .ok _ =>
      let rr := initStreamsLoop now xaddRes groupCreate rest
      (rr.1, r.2 ++ rr.2)

/-- InitializeStreams from the publisher file. -/
def initializeStreams (now : Timestamp) (xaddRes : String → Except String String)
    (groupCreate : String → String → Option String) : Except String Unit × List Effect :=
  initStreamsLoop now xaddRes groupCreate wellKnownStreams

/-- Whether an Except carries a success. -/
def exceptOk {α : Type} : Except String α → Bool
  | .ok _ => true
  | .error _ => false

/-- A trace made only of log lines (the handlers of this repository
have no Redis client, so their traces are log-only). -/
def logOnly (tr : List Effect) : Bool :=
  tr.all fun e =>
    match e with
    | .logError _ => true
    | .logInfo _ => true
    | .logDebug _ => true
    | _ => false

/-- Count of decode-failure log lines in a trace. -/
def parseFailureCount (tr : List Effect) : Nat :=
  tr.countP fun e =>
    match e with
    | .logError m => m == "Failed to parse event message"
    | _ => false

/-- Concrete fixtures used by the witness theorems. -/
def wEvent : Event :=
  { id := "e-1", type_ := eventTypePositionChanged, streamID := "1-1", userID := "u1",
    eventID := "c1", timestamp := 5,
    data := [("distance_moved", GoValue.gnum 150)],
    metadata := ⟨"position-api", "1.0", ""⟩ }

def wEvent50 : Event :=
  { wEvent with
    id := "e-2"
    streamID := "1-2"
    data := [("distance_moved", GoValue.gnum 50)] }

def wEventEmptyID : Event :=
  { wEvent with id := "", streamID := "" }

def wEventNearby : Event :=
  { wEvent with
    id := "e-3"
    type_ := eventTypeUserNearby
    streamID := "2-2"
    data := [] }

def wEventBadData : Event :=
  { wEvent with
    id := "e-4"
    streamID := ""
    data := [("f", GoValue.gunsupported "func() value")] }

def wFailingHandler : Handler :=
  { canHandle := fun t => t == eventTypePositionChanged,
    handle := fun _ => ([Effect.logInfo "about to fail"], some "handler failure") }

def wMsgBad : XMessage := ⟨"9-1", [("event_id", .vstr "x")]⟩

end Geoloc

namespace Geoloc

mutual

theorem jsonToGo_goMarshal : ∀ (v : GoValue) (j : JValue), goMarshal v = some j → jsonToGo j = v
  | .gnull, j, h => by
    simp [goMarshal] at h
    subst h
    rfl
  | .gbool b, j, h => by
    simp [goMarshal] at h
    subst h
    rfl
  | .gnum q, j, h => by
    simp [goMarshal] at h
    subst h
    rfl
  | .gstr s, j, h => by
    simp [goMarshal] at h
    subst h
    rfl
  | .garr xs, j, h => by
    simp [goMarshal] at h
    obtain ⟨js, hjs, rfl⟩ := h
    simp [jsonToGo, jsonToGoList_goMarshalList xs js hjs]
  | .gobj fs, j, h => by
    simp [goMarshal] at h
    obtain ⟨js, hjs, rfl⟩ := h
    simp [jsonToGo, jsonToGoFields_goMarshalFields fs js hjs]

theorem jsonToGoList_goMarshalList :
    ∀ (xs : List GoValue) (js : List JValue), goMarshalList xs = some js → jsonToGoList js = xs
  | [], js, h => by
    simp [goMarshalList] at h
    subst h
    rfl
  | x :: xs, js, h => by
    cases hx : goMarshal x with
    | none => simp [goMarshalList, hx] at h
    | some j =>
      cases hxs : goMarshalList xs with
      | none => simp [goMarshalList, hx, hxs] at h
      | some js0 =>
        simp [goMarshalList, hx, hxs] at h
        subst h
        simp [jsonToGoList, jsonToGo_goMarshal x j hx, jsonToGoList_goMarshalList xs js0 hxs]

theorem jsonToGoFields_goMarshalFields :
    ∀ (fs : List (String × GoValue)) (js : List (String × JValue)),
      goMarshalFields fs = some js → jsonToGoFields js = fs
  | [], js, h => by
    simp [goMarshalFields] at h
    subst h
    rfl
  | (k, v) :: fs, js, h => by
    cases hv : goMarshal v with
    | none => simp [goMarshalFields, hv] at h
    | some j =>
      cases hfs : goMarshalFields fs with
      | none => simp [goMarshalFields, hv, hfs] at h
      | some js0 =>
        simp [goMarshalFields, hv, hfs] at h
        subst h
        simp [jsonToGoFields, jsonToGo_goMarshal v j hv, jsonToGoFields_goMarshalFields fs js0 hfs]

end

theorem reqString_isSome (m : XMessage) (k : String) :
    (reqString m k).isSome = fieldPresentString m k := by
  unfold reqString fieldPresentString
  cases h : m.field k with
  | none => simp
  | some v => cases hv : v.isGoString <;> simp [hv]

theorem parsedTime_ok (m : XMessage) :
    exceptOk (parsedTime m) = ((m.field "timestamp").bind RVal.parseTime).isSome := by
  unfold parsedTime
  cases h : m.field "timestamp" with
  | none => simp [exceptOk]
  | some v => cases v <;> simp [RVal.isGoString, RVal.parseTime, exceptOk]

theorem parsedData_ok (m : XMessage) :
    exceptOk (parsedData m) = (((m.field "data").bind RVal.parseJson).bind jsonToGoMap).isSome := by
  unfold parsedData
  cases h : m.field "data" with
  | none => simp [exceptOk]
  | some v =>
    cases v with
    | vjson j =>
      cases hj : jsonToGoMap j <;>
        simp [RVal.isGoString, RVal.parseJson, hj, exceptOk]
    | _ => simp [RVal.isGoString, RVal.parseJson, exceptOk]

theorem parsedMetadata_ok (m : XMessage) :
    exceptOk (parsedMetadata m) =
      (((m.field "metadata").bind RVal.parseJson).bind unmarshalMetadata).isSome := by
  unfold parsedMetadata
  cases h : m.field "metadata" with
  | none => simp [exceptOk]
  | some v =>
    cases v with
    | vjson j =>
      cases hj : unmarshalMetadata j <;>
        simp [RVal.isGoString, RVal.parseJson, hj, exceptOk]
    | _ => simp [RVal.isGoString, RVal.parseJson, exceptOk]

/-- parseMessage succeeds exactly on well-formed entries: every
required field present and string-typed, timestamp/data/metadata
moreover parseable. -/
theorem parseMessage_ok_iff_wellFormed (m : XMessage) :
    exceptOk (parseMessage m) = wellFormedMessage m := by
  unfold parseMessage wellFormedMessage
  rw [← reqString_isSome, ← reqString_isSome, ← reqString_isSome, ← reqString_isSome,
      ← parsedTime_ok, ← parsedData_ok, ← parsedMetadata_ok]
  cases h1 : reqString m "event_id" <;>
    cases h2 : reqString m "type" <;>
      cases h3 : reqString m "user_id" <;>
        cases h4 : reqString m "event_ctx" <;>
          cases h5 : parsedTime m <;>
            cases h6 : parsedData m <;>
              cases h7 : parsedMetadata m <;>
                simp [exceptOk]

theorem runHandlers_invoked (e : Event) (hs : List Handler) :
    (runHandlers e hs).2.1 = hs.filter (fun h => h.canHandle e.type_) := by
  induction hs with
  | nil => rfl
  | cons h hs ih =>
    by_cases hc : h.canHandle e.type_ = true <;>
      simp [runHandlers, hc, ih]

theorem runHandlers_success_iff (e : Event) (hs : List Handler) :
    (runHandlers e hs).2.2 =
      (hs.filter (fun h => h.canHandle e.type_)).all (fun h => (h.handle e).2.isNone) := by
  induction hs with
  | nil => rfl
  | cons h hs ih =>
    by_cases hc : h.canHandle e.type_ = true <;>
      simp [runHandlers, hc, ih]

theorem ackedIn_of_logOnly (tr : List Effect) (s g i : String)
    (h : logOnly tr = true) : ackedIn tr s g i = false := by
  induction tr with
  | nil => rfl
  | cons x xs ih =>
    unfold logOnly at h
    rw [List.all_cons, Bool.and_eq_true] at h
    cases x <;> simp_all [ackedIn, List.any_cons, isAckOf, logOnly]

theorem runHandlers_trace_logOnly (e : Event) (hs : List Handler)
    (hlog : ∀ h ∈ hs, logOnly (h.handle e).1 = true) :
    logOnly (runHandlers e hs).1 = true := by
  induction hs with
  | nil => rfl
  | cons h hs ih =>
    have hh := hlog h (by simp)
    have hrest := ih (fun h0 hm => hlog h0 (by simp [hm]))
    by_cases hc : h.canHandle e.type_ = true
    · cases herr : (h.handle e).2 <;>
        simp_all [runHandlers, hc, logOnly, List.all_append]
    · simp [runHandlers, hc, hrest]

/-- C1: with at least one handler registered for the event's type,
processEvent invokes exactly the handlers whose CanHandle holds, in
registration order, continues past individual errors, and acknowledges
(XACK of the event's StreamID) iff every invoked handler returned no
error; on any handler error the entry stays in the group's pending
set. -/
theorem processEvent_ack_iff_handlers_ok
    (reg : String → List Handler) (stream group : String) (e : Event) (pending : List String)
    (hne : (reg e.type_).isEmpty = false)
    (hlog : ∀ h ∈ reg e.type_, logOnly (h.handle e).1 = true)
    (hpend : e.streamID ∈ pending) :
    (runHandlers e (reg e.type_)).2.1 = (reg e.type_).filter (fun h => h.canHandle e.type_) ∧
    (runHandlers e (reg e.type_)).2.2 =
      ((reg e.type_).filter (fun h => h.canHandle e.type_)).all (fun h => (h.handle e).2.isNone) ∧
    ackedIn (processEvent reg none stream group e) stream group e.streamID =
      (runHandlers e (reg e.type_)).2.2 ∧
    (e.streamID ∈ pendingAfter pending (processEvent reg none stream group e) stream group ↔
      (runHandlers e (reg e.type_)).2.2 = false) := by
  have hackfree : ackedIn (runHandlers e (reg e.type_)).1 stream group e.streamID = false :=
    ackedIn_of_logOnly _ _ _ _ (runHandlers_trace_logOnly e _ hlog)
  have hackfree' : (runHandlers e (reg e.type_)).1.any (isAckOf stream group e.streamID) = false :=
    hackfree
  have hack : ackedIn (processEvent reg none stream group e) stream group e.streamID =
      (runHandlers e (reg e.type_)).2.2 := by
    unfold processEvent
    cases hok : (runHandlers e (reg e.type_)).2.2 <;>
      simp [hne, hok, ackCall, ackedIn, List.any_append, List.any_cons, isAckOf, hackfree']
  refine ⟨runHandlers_invoked e _, runHandlers_success_iff e _, hack, ?_⟩
  simp [pendingAfter, List.mem_filter, hpend, hack]

/-- Witness for C1: with the repository's registry every handler of a
PositionChanged event succeeds and the entry is acknowledged; with a
registry holding one failing handler it is not. -/
theorem processEvent_ack_iff_handlers_ok_witness :
    ackedIn (processEvent registeredHandlers none "st" "gr" wEvent) "st" "gr" wEvent.streamID = true ∧
    ackedIn (processEvent (fun t => if t = eventTypePositionChanged then [wFailingHandler] else [])
      none "st" "gr" wEvent) "st" "gr" wEvent.streamID = false := by
  constructor
  · have h := processEvent_ack_iff_handlers_ok registeredHandlers "st" "gr" wEvent ["1-1"]
      (by decide) (by decide) (by decide)
    rw [h.2.2.1]
    decide
  · have h := processEvent_ack_iff_handlers_ok
      (fun t => if t = eventTypePositionChanged then [wFailingHandler] else [])
      "st" "gr" wEvent ["1-1"] (by decide) (by decide) (by decide)
    rw [h.2.2.1]
    decide

/-- C5: an event whose type has no registered handler is immediately
acknowledged and dropped: the whole trace is the error-level anomaly
log followed by the successful XACK, with no handler invocation. -/
theorem processEvent_noHandlers_acks_and_drops
    (reg : String → List Handler) (stream group : String) (e : Event)
    (h : reg e.type_ = []) :
    processEvent reg none stream group e =
      [Effect.logError "No handlers registered for event type",
       Effect.xack stream group e.streamID true,
       Effect.logDebug "Event acknowledged"] ∧
    ackedIn (processEvent reg none stream group e) stream group e.streamID = true := by
  have htr : processEvent reg none stream group e =
      [Effect.logError "No handlers registered for event type",
       Effect.xack stream group e.streamID true,
       Effect.logDebug "Event acknowledged"] := by
    unfold processEvent
    rw [h]
    rfl
  refine ⟨htr, ?_⟩
  simp [htr, ackedIn, List.any_cons, isAckOf]

/-- Witness for C5: a proximity.user_nearby event has no registered
handler and is acked and dropped. -/
theorem processEvent_noHandlers_acks_and_drops_witness :
    processEvent registeredHandlers none "st" "gr" wEventNearby =
      [Effect.logError "No handlers registered for event type",
       Effect.xack "st" "gr" "2-2" true,
       Effect.logDebug "Event acknowledged"] := by
  have h := processEvent_noHandlers_acks_and_drops registeredHandlers "st" "gr" wEventNearby rfl
  exact h.1

/-- C2: publishing an event with an empty ID, when it succeeds, leaves
the event with the freshly generated (non-empty) ID and a non-empty
StreamID equal to the log-assigned identifier. -/
theorem publish_emptyID_assigns_id_and_streamID (genID rid stream : String) (e : Event)
    (hid : e.id = "") (hgen : genID ≠ "") (hrid : rid ≠ "")
    (hok : exceptOk (publish genID (.ok rid) stream e).result = true) :
    (publish genID (.ok rid) stream e).event.id = genID ∧
    (publish genID (.ok rid) stream e).event.id ≠ "" ∧
    (publish genID (.ok rid) stream e).event.streamID = rid ∧
    (publish genID (.ok rid) stream e).event.streamID ≠ "" := by
  unfold publish at hok ⊢
  cases hm : goMarshalFields e.data with
  | none => simp [hid, hm, exceptOk] at hok
  | some jf => simp [hid, hm, exceptOk, hgen, hrid]

/-- Witness for C2. -/
theorem publish_emptyID_assigns_id_and_streamID_witness :
    (publish "uuid-1" (.ok "5-0") "st" wEventEmptyID).event.id = "uuid-1" ∧
    (publish "uuid-1" (.ok "5-0") "st" wEventEmptyID).event.streamID = "5-0" := by
  have h := publish_emptyID_assigns_id_and_streamID "uuid-1" "5-0" "st" wEventEmptyID
    rfl (by decide) (by decide) (by decide)
  exact ⟨h.1, h.2.2.1⟩

/-- C3: starting from an empty StreamID, every failing Publish
(unserialisable Data, or a failed append) returns an error and leaves
StreamID empty; conversely a serialisation or append failure does make
Publish fail. -/
theorem publish_failure_leaves_streamID_empty (genID stream : String)
    (xaddRes : Except String String) (e : Event) (h0 : e.streamID = "") :
    (exceptOk (publish genID xaddRes stream e).result = false →
      (publish genID xaddRes stream e).event.streamID = "") ∧
    ((goMarshalFields e.data = none ∨ ∃ msg, xaddRes = .error msg) →
      exceptOk (publish genID xaddRes stream e).result = false) := by
  unfold publish
  by_cases hid : e.id = "" <;>
    cases hm : goMarshalFields e.data <;>
      cases xaddRes <;>
        simp [hid, hm, h0, exceptOk]

/-- Witness for C3: an event whose Data holds an unencodable value
fails Publish and keeps its empty StreamID. -/
theorem publish_failure_leaves_streamID_empty_witness :
    exceptOk (publish "uuid-2" (.ok "5-1") "st" wEventBadData).result = false ∧
    (publish "uuid-2" (.ok "5-1") "st" wEventBadData).event.streamID = "" := by
  have h := publish_failure_leaves_streamID_empty "uuid-2" "st" (.ok "5-1") wEventBadData rfl
  have hfail := h.2 (Or.inl rfl)
  exact ⟨hfail, h.1 hfail⟩

/-- C9: `StreamID` is assigned only by a successful append — whenever
Publish changed it, the call succeeded and the new value is the
log-assigned identifier — and the consumer never rewrites it except by
constructing a decoded event whose StreamID is the log entry's own
identifier. -/
theorem streamID_only_set_on_successful_append (genID stream : String)
    (xaddRes : Except String String) (e : Event) :
    ((publish genID xaddRes stream e).event.streamID ≠ e.streamID →
      (publish genID xaddRes stream e).result = .ok () ∧
      xaddRes = .ok ((publish genID xaddRes stream e).event.streamID)) ∧
    (∀ (m : XMessage) (d : Event), parseMessage m = .ok d → d.streamID = m.id) := by
  constructor
  · unfold publish
    by_cases hid : e.id = "" <;>
      cases hm : goMarshalFields e.data <;>
        cases xaddRes <;>
          simp [hid, hm, exceptOk]
  · intro m d h
    unfold parseMessage at h
    repeat' split at h
    all_goals simp_all
    subst h
    rfl

/-- Witness for C9: a successful publish of an event with empty
StreamID sets it to exactly the log-assigned identifier. -/
theorem streamID_only_set_on_successful_append_witness :
    (publish "uuid-3" (.ok "7-7") "st" wEventEmptyID).result = .ok () := by
  have h := streamID_only_set_on_successful_append "uuid-3" "st" (.ok "7-7") wEventEmptyID
  exact (h.1 (by decide)).1

/-- Decoding the exact record Publish writes recovers every envelope
field; the decoded Data is the JSON-decoded image of the marshalled
Data and StreamID is the entry's identifier. -/
theorem parseMessage_publishFields (e : Event) (jf : List (String × JValue)) (rid : String) :
    parseMessage ⟨rid, publishFields e (.jobj jf) (marshalMetadata e.metadata)⟩ =
      .ok { id := e.id, type_ := e.type_, streamID := rid, userID := e.userID,
            eventID := e.eventID, timestamp := e.timestamp,
            data := jsonToGoFields jf, metadata := e.metadata } := by
  simp [parseMessage, reqString, XMessage.field, publishFields, lookupVal,
        parsedTime, parsedData, parsedMetadata, RVal.isGoString, RVal.goString,
        RVal.parseTime, RVal.parseJson, jsonToGoMap, unmarshalMetadata,
        marshalMetadata, jsonStrField, List.lookup]

/-- C4: every successfully published event decodes from its appended
log record (via parseMessage) to an event with the same ID (the one the
publisher left on the event), Type, UserID, context id, the exact
Timestamp (the RFC3339Nano round trip is lossless at nanosecond
precision), Data and Metadata equal to the originals after the JSON
round trip (which is lossless on serialisable values), and StreamID
equal to the log entry's own identifier. -/
theorem publish_parseMessage_roundTrip (genID stream : String)
    (xaddRes : Except String String) (e : Event) (rec : XMessage)
    (happ : (publish genID xaddRes stream e).appended = some rec) :
    parseMessage rec =
      .ok { id := (publish genID xaddRes stream e).event.id,
            type_ := e.type_, streamID := rec.id, userID := e.userID,
            eventID := e.eventID, timestamp := e.timestamp,
            data := e.data, metadata := e.metadata } := by
  obtain ⟨rid0, vals0⟩ := rec
  unfold publish at happ ⊢
  by_cases hid : e.id = ""
  · cases hm : goMarshalFields e.data with
    | none => simp [hid, hm] at happ
    | some jf =>
      cases xaddRes with
      | error msg => simp [hid, hm] at happ
      | ok rid =>
        simp [hid, hm] at happ ⊢
        obtain ⟨-, hv⟩ := happ
        subst hv
        have hdata := jsonToGoFields_goMarshalFields e.data jf hm
        simpa [hdata] using parseMessage_publishFields { e with id := genID } jf rid0
  · cases hm : goMarshalFields e.data with
    | none => simp [hid, hm] at happ
    | some jf =>
      cases xaddRes with
      | error msg => simp [hid, hm] at happ
      | ok rid =>
        simp [hid, hm] at happ ⊢
        obtain ⟨-, hv⟩ := happ
        subst hv
        have hdata := jsonToGoFields_goMarshalFields e.data jf hm
        simpa [hdata] using parseMessage_publishFields e jf rid0

/-- Witness for C4. -/
theorem publish_parseMessage_roundTrip_witness :
    parseMessage ⟨"5-0", publishFields { wEventEmptyID with id := "uuid-1" }
        (.jobj [("distance_moved", .jnum 150)])
        (marshalMetadata wEventEmptyID.metadata)⟩ =
      .ok { id := (publish "uuid-1" (.ok "5-0") "st" wEventEmptyID).event.id,
            type_ := wEventEmptyID.type_, streamID := "5-0",
            userID := wEventEmptyID.userID, eventID := wEventEmptyID.eventID,
            timestamp := wEventEmptyID.timestamp,
            data := wEventEmptyID.data, metadata := wEventEmptyID.metadata } :=
  publish_parseMessage_roundTrip "uuid-1" "st" (.ok "5-0") wEventEmptyID
    ⟨"5-0", publishFields { wEventEmptyID with id := "uuid-1" }
      (.jobj [("distance_moved", .jnum 150)])
      (marshalMetadata wEventEmptyID.metadata)⟩ rfl

theorem handleEntries_noCancel (msgs : List XMessage) (n : Nat) :
    (handleEntries (fun _ => false) n msgs).2.2 = false ∧
    (handleEntries (fun _ => false) n msgs).2.1 = msgs.filterMap parseOption ∧
    parseFailureCount (handleEntries (fun _ => false) n msgs).1 =
      (msgs.filter (fun m => !exceptOk (parseMessage m))).length := by
  induction msgs generalizing n with
  | nil => simp [handleEntries, parseFailureCount]
  | cons m rest ih =>
    cases hp : parseMessage m with
    | error err =>
      obtain ⟨h1, h2, h3⟩ := ih n
      simp [handleEntries, hp, parseOption, parseFailureCount, List.countP_cons,
        exceptOk, h1, h2]
      exact h3
    | ok ev =>
      obtain ⟨h1, h2, h3⟩ := ih (n + 1)
      simp [handleEntries, hp, parseOption, parseFailureCount, List.countP_cons,
        exceptOk, h1, h2]
      exact h3

/-- C6: with the context alive, one read-loop iteration over a batch
sends exactly the decodable entries (in order) onto the channel, logs
one decode-failure error per undecodable entry, never terminates the
goroutine (so the channel stays open), and parseMessage fails exactly
on entries with a missing, wrongly-typed or unparseable required
field. -/
theorem subscribe_decode_failure_drops_and_continues (msgs : List XMessage) :
    (subscribeIteration false (.rok msgs) (fun _ => false)).exited = false ∧
    (subscribeIteration false (.rok msgs) (fun _ => false)).sent = msgs.filterMap parseOption ∧
    parseFailureCount (subscribeIteration false (.rok msgs) (fun _ => false)).trace =
      (msgs.filter (fun m => !wellFormedMessage m)).length ∧
    (∀ m : XMessage, exceptOk (parseMessage m) = wellFormedMessage m) := by
  obtain ⟨h1, h2, h3⟩ := handleEntries_noCancel msgs 0
  refine ⟨?_, ?_, ?_, parseMessage_ok_iff_wellFormed⟩
  · simpa [subscribeIteration] using h1
  · simpa [subscribeIteration] using h2
  · simp only [subscribeIteration, Bool.false_eq_true, if_false]
    rw [h3]
    simp [parseMessage_ok_iff_wellFormed]

/-- C8: the Notification handler records a push notification exactly
when distance_moved exceeds 100 m — so for 150 it does and for 50 it
does not — returning nil in both cases, and in both cases processing
through the repository's registry acknowledges the event. -/
theorem notification_push_threshold (e1 e2 : Event)
    (ht1 : e1.type_ = eventTypePositionChanged)
    (hd1 : lookupGo e1.data "distance_moved" = some (.gnum 150))
    (ht2 : e2.type_ = eventTypePositionChanged)
    (hd2 : lookupGo e2.data "distance_moved" = some (.gnum 50)) :
    hasLogInfo (notificationHandler.handle e1).1 "Sending push notification" = true ∧
    (notificationHandler.handle e1).2 = none ∧
    ackedIn (processEvent registeredHandlers none "st" "gr" e1) "st" "gr" e1.streamID = true ∧
    hasLogInfo (notificationHandler.handle e2).1 "Sending push notification" = false ∧
    (notificationHandler.handle e2).2 = none ∧
    ackedIn (processEvent registeredHandlers none "st" "gr" e2) "st" "gr" e2.streamID = true := by
  have h150 : ((150 : Rat) > 100) = True := by norm_num
  have h50 : ((50 : Rat) > 100) = False := by norm_num
  refine ⟨?_, ?_, ?_, ?_, ?_, ?_⟩ <;>
    simp [notificationHandler, notificationHandle, notificationHandlePositionChanged,
      notificationCanHandle, analyticsHandler, analyticsHandle, realtimeHandler,
      realtimeHandle, registeredHandlers, processEvent, runHandlers, ackCall,
      ackedIn, isAckOf, hasLogInfo, dataNum, ht1, hd1, ht2, hd2, h150, h50,
      eventTypePositionChanged, eventTypeUserEnteredSector, eventTypeUserLeftSector]

/-- Witness for C8. -/
theorem notification_push_threshold_witness :
    hasLogInfo (notificationHandler.handle wEvent).1 "Sending push notification" = true ∧
    hasLogInfo (notificationHandler.handle wEvent50).1 "Sending push notification" = false := by
  have h := notification_push_threshold wEvent wEvent50 rfl rfl rfl rfl
  exact ⟨h.1, h.2.2.2.1⟩

theorem ensureStream_ok_iff (now : Timestamp) (xres : Except String String)
    (gc : String → Option String) (s : String) :
    exceptOk (ensureStreamExists now xres gc s).1 = exceptOk xres := by
  cases xres <;> rfl

theorem ensureStream_logs_group_failure (now : Timestamp) (rid : String)
    (gc : String → Option String) (s g msg : String)
    (hg : g ∈ wellKnownGroups) (hmsg : gc g = some msg) (hne : msg ≠ busygroupMsg) :
    hasLogError (ensureStreamExists now (.ok rid) gc s).2 "Failed to create consumer group" = true := by
  fin_cases hg <;>
    simp [ensureStreamExists, wellKnownGroups, createGroupTrace, hasLogError,
      List.any_append, List.any_cons, hmsg, hne]

/-- C10: InitializeStreams fails exactly when some dummy append used to
ensure a stream's existence fails; with all appends succeeding, a
non-BUSYGROUP failure to create any well-known consumer group is
logged at error level but swallowed, and the call still returns
success. -/
theorem initializeStreams_error_only_on_append_failure
    (now : Timestamp) (xres : String → Except String String)
    (gc : String → String → Option String) :
    (exceptOk (initializeStreams now xres gc).1 =
      (wellKnownStreams.all fun s => exceptOk (xres s))) ∧
    (∀ s ∈ wellKnownStreams, ∀ g ∈ wellKnownGroups, ∀ msg : String,
      (∀ s0 ∈ wellKnownStreams, exceptOk (xres s0) = true) →
      gc s g = some msg → msg ≠ busygroupMsg →
      exceptOk (initializeStreams now xres gc).1 = true ∧
      hasLogError (initializeStreams now xres gc).2 "Failed to create consumer group" = true) := by
  constructor
  · cases h1 : xres streamPositionEvents <;>
      cases h2 : xres streamSectorEvents <;>
        cases h3 : xres streamProximityEvents <;>
          simp [initializeStreams, initStreamsLoop, wellKnownStreams,
            ensureStreamExists, h1, h2, h3, exceptOk]
  · intro s hs g hg msg hall hmsg hne
    have ha1 := hall streamPositionEvents (by simp [wellKnownStreams])
    have ha2 := hall streamSectorEvents (by simp [wellKnownStreams])
    have ha3 := hall streamProximityEvents (by simp [wellKnownStreams])
    cases h1 : xres streamPositionEvents with
    | error e1 => rw [h1] at ha1; simp [exceptOk] at ha1
    | ok r1 =>
      cases h2 : xres streamSectorEvents with
      | error e2 => rw [h2] at ha2; simp [exceptOk] at ha2
      | ok r2 =>
        cases h3 : xres streamProximityEvents with
        | error e3 => rw [h3] at ha3; simp [exceptOk] at ha3
        | ok r3 =>
          have hok : exceptOk (initializeStreams now xres gc).1 = true := by
            simp [initializeStreams, initStreamsLoop, wellKnownStreams,
              ensureStreamExists, h1, h2, h3, exceptOk]
          refine ⟨hok, ?_⟩
          have htrace : (initializeStreams now xres gc).2 =
              (ensureStreamExists now (.ok r1) (gc streamPositionEvents) streamPositionEvents).2 ++
              ((ensureStreamExists now (.ok r2) (gc streamSectorEvents) streamSectorEvents).2 ++
                ((ensureStreamExists now (.ok r3) (gc streamProximityEvents) streamProximityEvents).2 ++
                  [Effect.logInfo "All Redis Streams initialized successfully"])) := by
            simp [initializeStreams, initStreamsLoop, wellKnownStreams,
              ensureStreamExists, h1, h2, h3]
          rw [htrace]
          unfold hasLogError at *
          simp only [List.any_append, Bool.or_eq_true]
          fin_cases hs
          · exact Or.inl (ensureStream_logs_group_failure now r1 _ _ g msg hg hmsg hne)
          · exact Or.inr (Or.inl (ensureStream_logs_group_failure now r2 _ _ g msg hg hmsg hne))
          · exact Or.inr (Or.inr (Or.inl (ensureStream_logs_group_failure now r3 _ _ g msg hg hmsg hne)))

/-- Witness for C10: all appends succeed, creating the analytics group
on the position stream fails with a non-BUSYGROUP error, and
InitializeStreams still returns success while logging the failure. -/
theorem initializeStreams_error_only_on_append_failure_witness :
    exceptOk (initializeStreams 0 (fun _ => .ok "0-1")
      (fun s g => if s = streamPositionEvents ∧ g = consumerGroupAnalytics
        then some "ERR The XGROUP subcommand requires the key to exist" else none)).1 = true ∧
    hasLogError (initializeStreams 0 (fun _ => .ok "0-1")
      (fun s g => if s = streamPositionEvents ∧ g = consumerGroupAnalytics
        then some "ERR The XGROUP subcommand requires the key to exist" else none)).2
      "Failed to create consumer group" = true := by
  have h := (initializeStreams_error_only_on_append_failure 0 (fun _ => .ok "0-1")
    (fun s g => if s = streamPositionEvents ∧ g = consumerGroupAnalytics
      then some "ERR The XGROUP subcommand requires the key to exist" else none)).2
    streamPositionEvents (by simp [wellKnownStreams])
    consumerGroupAnalytics (by simp [wellKnownGroups, consumerGroupAnalytics])
    "ERR The XGROUP subcommand requires the key to exist"
    (fun s0 _ => rfl) (by simp) (by decide)
  exact h

end Geoloc
